import Mathlib

/-!
Verification of the S&C block programming and progression engine of the
ride-log-app repository (src/services.py, src/app.py, src/db_store.py,
src/api.py).

Conventions of the shallow embedding:
* Python ints are modelled as Lean integers; Python floats carrying decimal
  quantities (loads in kg, %1RM ratios) are modelled as exact rationals.
* The builtin Python round (banker's rounding, half to even) is modelled by
  pyRound (one-argument form, returning an int) and roundTo (two-argument
  form round(x, n), returning a value quantised to 10 ^ (-n)).
* Python Optional values become Option, Python dict results become
  structures, and functions that can raise become Except String valued
  functions.
* The SQLite tables touched by the engine are modelled as lists of rows
  inside a Store structure, with per-table autoincrement counters.
-/

/-- Python round(x) for a rational: round half to even (banker's rounding),
as used by services._suggest_progression via int(round(...)). -/
def pyRound (q : ℚ) : ℤ :=
  if q - ⌊q⌋ < 1/2 then ⌊q⌋
  else if 1/2 < q - ⌊q⌋ then ⌊q⌋ + 1
  else if ⌊q⌋ % 2 = 0 then ⌊q⌋ else ⌊q⌋ + 1

/-- Python round(x, n): round to n decimal places, half to even. -/
def roundTo (q : ℚ) (n : ℕ) : ℚ :=
  (pyRound (q * 10 ^ n) : ℚ) / 10 ^ n

theorem pyRound_le (q : ℚ) : (pyRound q : ℚ) ≤ q + 1/2 := by
  have hf : (⌊q⌋ : ℚ) ≤ q := Int.floor_le q
  have hf2 : q < ⌊q⌋ + 1 := Int.lt_floor_add_one q
  unfold pyRound
  split_ifs with h1 h2 h3 <;> push_cast <;> linarith

theorem le_pyRound (q : ℚ) : q - 1/2 ≤ (pyRound q : ℚ) := by
  have hf : (⌊q⌋ : ℚ) ≤ q := Int.floor_le q
  have hf2 : q < ⌊q⌋ + 1 := Int.lt_floor_add_one q
  unfold pyRound
  split_ifs with h1 h2 h3 <;> push_cast <;> linarith

theorem pyRound_le_floor_add_one (q : ℚ) : pyRound q ≤ ⌊q⌋ + 1 := by
  unfold pyRound; split_ifs <;> omega

theorem floor_le_pyRound (q : ℚ) : ⌊q⌋ ≤ pyRound q := by
  unfold pyRound; split_ifs <;> omega

theorem pyRound_mono {q r : ℚ} (h : q ≤ r) : pyRound q ≤ pyRound r := by
  have hff : ⌊q⌋ ≤ ⌊r⌋ := Int.floor_le_floor h
  rcases lt_or_eq_of_le hff with hlt | heq
  · have h1 := pyRound_le_floor_add_one q
    have h2 := floor_le_pyRound r
    omega
  · have hqr : q - (⌊q⌋ : ℚ) ≤ r - (⌊q⌋ : ℚ) := by linarith
    unfold pyRound
    rw [← heq]
    split_ifs <;> first | omega | linarith

theorem pyRound_intCast (n : ℤ) : pyRound (n : ℚ) = n := by
  unfold pyRound
  rw [Int.floor_intCast]
  simp

theorem pyRound_eq_low (q : ℚ) (f : ℤ) (hf1 : (f : ℚ) ≤ q) (hf2 : q - f < 1/2) :
    pyRound q = f := by
  have hfl : ⌊q⌋ = f := Int.floor_eq_iff.mpr ⟨hf1, by linarith⟩
  unfold pyRound
  rw [hfl, if_pos hf2]

theorem pyRound_eq_high (q : ℚ) (f : ℤ) (hf1 : 1/2 < q - f) (hf2 : q < f + 1) :
    pyRound q = f + 1 := by
  have hfl : ⌊q⌋ = f := Int.floor_eq_iff.mpr ⟨by linarith, by linarith⟩
  unfold pyRound
  rw [hfl, if_neg (by linarith), if_pos hf1]

theorem pyRound_eq_int (q : ℚ) (n : ℤ) (h : q = n) : pyRound q = n := h ▸ pyRound_intCast n

theorem roundTo_le (q : ℚ) (n : ℕ) : roundTo q n ≤ q + 1 / (2 * 10 ^ n) := by
  unfold roundTo
  have h10 : (0:ℚ) < 10 ^ n := by positivity
  rw [div_le_iff₀ h10]
  have := pyRound_le (q * 10 ^ n)
  calc (pyRound (q * 10 ^ n) : ℚ) ≤ q * 10 ^ n + 1/2 := this
    _ = (q + 1 / (2 * 10 ^ n)) * 10 ^ n := by field_simp; ring

theorem le_roundTo (q : ℚ) (n : ℕ) : q - 1 / (2 * 10 ^ n) ≤ roundTo q n := by
  unfold roundTo
  have h10 : (0:ℚ) < 10 ^ n := by positivity
  rw [le_div_iff₀ h10]
  have := le_pyRound (q * 10 ^ n)
  calc (q - 1 / (2 * 10 ^ n)) * 10 ^ n = q * 10 ^ n - 1/2 := by field_simp; ring
    _ ≤ (pyRound (q * 10 ^ n) : ℚ) := this

theorem roundTo_mono {q r : ℚ} (n : ℕ) (h : q ≤ r) : roundTo q n ≤ roundTo r n := by
  unfold roundTo
  have h10 : (0:ℚ) < 10 ^ n := by positivity
  have hm : pyRound (q * 10 ^ n) ≤ pyRound (r * 10 ^ n) :=
    pyRound_mono (mul_le_mul_of_nonneg_right h (le_of_lt h10))
  have hc : ((pyRound (q * 10 ^ n) : ℚ)) ≤ pyRound (r * 10 ^ n) := by exact_mod_cast hm
  gcongr

theorem roundTo_exact (m : ℤ) (n : ℕ) : roundTo ((m : ℚ) / 10 ^ n) n = (m : ℚ) / 10 ^ n := by
  unfold roundTo
  have h10 : (10:ℚ) ^ n ≠ 0 := by positivity
  rw [div_mul_cancel₀ _ h10, pyRound_intCast]

/-- services._suggest_progression: the default weekly suggestion engine.
Returns (sets_target, reps_target, load_kg_target, pct_1rm_target). -/
def suggestProgression (style : String) (week_no : ℤ) (deload : Bool)
    (sets_base reps_base : ℤ) (load_base pct_base : Option ℚ) :
    ℤ × ℤ × Option ℚ × Option ℚ :=
  if deload then
    (max 1 (pyRound ((sets_base : ℚ) * 0.6)),
     max 1 (pyRound ((reps_base : ℚ) * 0.7)),
     load_base.map (fun l => roundTo (l * 0.9) 1),
     pct_base.map (fun p => roundTo (p * 0.9) 3))
  else if style = "isometric" ∨ style = "bodyweight" then
    (sets_base, reps_base + (week_no - 1) * 5, load_base, pct_base)
  else if style = "conditioning" then
    (sets_base, reps_base + (week_no - 1) * 1, load_base, pct_base)
  else if style = "db_kb" then
    let reps_t := reps_base + (week_no - 1) * 1
    match load_base with
    | some l =>
        if reps_t > 12 then (sets_base, 8, some (roundTo (l + 2.5) 1), pct_base)
        else (sets_base, reps_t, some l, pct_base)
    | none => (sets_base, reps_t, none, pct_base)
  else if style = "barbell" then
    match load_base, pct_base with
    | some l, p => (sets_base, reps_base, some (roundTo (l + (week_no - 1) * 2.5) 1), p)
    | none, some p => (sets_base, reps_base, none, some (roundTo (p + (week_no - 1) * 0.02) 3))
    | none, none => (sets_base, reps_base, none, none)
  else
    (sets_base, reps_base + (week_no - 1) * 1, load_base, pct_base)

example : suggestProgression "db_kb" 4 false 3 10 (some 20) none = (3, 8, some (45/2), none) := by
  simp [suggestProgression, roundTo]
  norm_num [pyRound_eq_int (225:ℚ) 225 (by norm_num)]

example : suggestProgression "barbell" 3 false 4 5 none (some (7/10)) = (4, 5, none, some (74/100)) := by
  simp [suggestProgression, roundTo]
  norm_num [pyRound_eq_int (740:ℚ) 740 (by norm_num)]

/-! Branch evaluation lemmas for suggestProgression, mirroring the
control flow of services._suggest_progression. -/

theorem suggest_deload_eval (style : String) (w s r : ℤ) (l p : Option ℚ) :
    suggestProgression style w true s r l p =
      (max 1 (pyRound ((s : ℚ) * 0.6)), max 1 (pyRound ((r : ℚ) * 0.7)),
       l.map (fun x => roundTo (x * 0.9) 1), p.map (fun x => roundTo (x * 0.9) 3)) := rfl

theorem suggest_iso_eval (style : String) (w s r : ℤ) (l p : Option ℚ)
    (h : style = "isometric" ∨ style = "bodyweight") :
    suggestProgression style w false s r l p = (s, r + (w - 1) * 5, l, p) := by
  unfold suggestProgression
  rw [if_neg (by simp), if_pos h]

theorem suggest_conditioning_eval (style : String) (w s r : ℤ) (l p : Option ℚ)
    (h : style = "conditioning") :
    suggestProgression style w false s r l p = (s, r + (w - 1) * 1, l, p) := by
  subst h
  simp [suggestProgression]

theorem suggest_dbkb_load_steady (style : String) (w s r : ℤ) (L : ℚ) (p : Option ℚ)
    (h : style = "db_kb") (hcap : r + (w - 1) * 1 ≤ 12) :
    suggestProgression style w false s r (some L) p = (s, r + (w - 1) * 1, some L, p) := by
  subst h
  simp only [suggestProgression]
  rw [if_neg (by simp), if_neg (by simp), if_neg (by simp), if_pos trivial]
  rw [if_neg (by omega)]

theorem suggest_dbkb_load_reset (style : String) (w s r : ℤ) (L : ℚ) (p : Option ℚ)
    (h : style = "db_kb") (hcap : 12 < r + (w - 1) * 1) :
    suggestProgression style w false s r (some L) p =
      (s, 8, some (roundTo (L + 2.5) 1), p) := by
  subst h
  simp only [suggestProgression]
  rw [if_neg (by simp), if_neg (by simp), if_neg (by simp), if_pos trivial]
  rw [if_pos (by omega)]

theorem suggest_dbkb_noload (style : String) (w s r : ℤ) (p : Option ℚ)
    (h : style = "db_kb") :
    suggestProgression style w false s r none p = (s, r + (w - 1) * 1, none, p) := by
  subst h
  simp [suggestProgression]

theorem suggest_barbell_load (style : String) (w s r : ℤ) (L : ℚ) (p : Option ℚ)
    (h : style = "barbell") :
    suggestProgression style w false s r (some L) p =
      (s, r, some (roundTo (L + (w - 1) * 2.5) 1), p) := by
  subst h
  simp [suggestProgression]

theorem suggest_barbell_pct (style : String) (w s r : ℤ) (P : ℚ)
    (h : style = "barbell") :
    suggestProgression style w false s r none (some P) =
      (s, r, none, some (roundTo (P + (w - 1) * 0.02) 3)) := by
  subst h
  simp [suggestProgression]

theorem suggest_barbell_none (style : String) (w s r : ℤ)
    (h : style = "barbell") :
    suggestProgression style w false s r none none = (s, r, none, none) := by
  subst h
  simp [suggestProgression]

theorem suggest_generic_eval (style : String) (w s r : ℤ) (l p : Option ℚ)
    (h1 : ¬(style = "isometric" ∨ style = "bodyweight"))
    (h2 : style ≠ "conditioning") (h3 : style ≠ "db_kb") (h4 : style ≠ "barbell") :
    suggestProgression style w false s r l p = (s, r + (w - 1) * 1, l, p) := by
  unfold suggestProgression
  rw [if_neg (by simp), if_neg h1, if_neg h2, if_neg h3, if_neg h4]

/-- Pointwise order on optional rationals: both absent, or both present and ordered. -/
def optionLeQ (a b : Option ℚ) : Bool :=
  match a, b with
  | none, none => true
  | some x, some y => decide (x ≤ y)
  | _, _ => false

theorem optionLeQ_refl (a : Option ℚ) : optionLeQ a a = true := by
  cases a <;> simp [optionLeQ]

theorem optionLeQ_some (x y : ℚ) (h : x ≤ y) : optionLeQ (some x) (some y) = true := by
  simp [optionLeQ, h]

/-- C1 (counterexample): with reps_base 10 and a 20 kg load, the claim predicts
that in week 5 (the week after the first cap overflow in week 4) reps resume
the linear climb from the floor, i.e. equal 9; the code instead returns the
floor 8 again (and the load stays at one single increment above base). -/
theorem c1_counterexample :
    suggestProgression "db_kb" 5 false 3 10 (some 20) none = (3, 8, some (45/2), none) ∧
    (suggestProgression "db_kb" 5 false 3 10 (some 20) none).2.1 ≠ 9 := by
  have h : suggestProgression "db_kb" 5 false 3 10 (some 20) none = (3, 8, some (45/2), none) := by
    rw [suggest_dbkb_load_reset _ 5 3 10 20 none rfl (by norm_num)]
    rw [show ((20:ℚ) + 2.5) = ((225 : ℤ) : ℚ) / 10 ^ 1 by norm_num, roundTo_exact]
    norm_num
  exact ⟨h, by rw [h]; norm_num⟩

/-- C1 (amended): for a dumbbell/kettlebell row with a configured load, in
EVERY non-deload week whose linearly progressed reps (base + 1 per week)
exceed the cap of 12 — the first such week and all later ones alike — the
computed reps equal the floor 8 and the computed load equals the base load
plus exactly one +2.5 kg increment; reps never resume a linear climb from
the floor and the load is never incremented a second time. -/
theorem c1_dbkb_double_progression_amended (w s r : ℤ) (L : ℚ) (p : Option ℚ)
    (hcap : 12 < r + (w - 1) * 1) :
    suggestProgression "db_kb" w false s r (some L) p = (s, 8, some (roundTo (L + 2.5) 1), p) ∧
    ∀ w' : ℤ, 12 < r + (w' - 1) * 1 →
      suggestProgression "db_kb" w' false s r (some L) p =
        suggestProgression "db_kb" w false s r (some L) p := by
  constructor
  · exact suggest_dbkb_load_reset _ w s r L p rfl hcap
  · intro w' hcap'
    rw [suggest_dbkb_load_reset _ w s r L p rfl hcap,
        suggest_dbkb_load_reset _ w' s r L p rfl hcap']

theorem c1_dbkb_double_progression_amended_witness :
    (12 < 10 + ((5:ℤ) - 1) * 1) ∧
    suggestProgression "db_kb" 5 false 3 10 (some 20) none =
      (3, 8, some (roundTo (20 + 2.5) 1), none) := by
  refine ⟨by norm_num, ?_⟩
  exact (c1_dbkb_double_progression_amended 5 3 10 20 none (by norm_num)).1

/-- C10 (counterexample): the claim states that on a deload week the returned
load equals base_load × 0.9 exactly; the code rounds that product to one
decimal place, so for base load 20.3 kg it returns 18.3, not 18.27. -/
theorem c10_counterexample :
    suggestProgression "barbell" 1 true 3 10 (some (20.3 : ℚ)) none ≠
      (max 1 (pyRound ((3:ℚ) * 0.6)), max 1 (pyRound ((10:ℚ) * 0.7)),
       some ((20.3 : ℚ) * 0.9), none) := by
  intro h
  rw [suggest_deload_eval] at h
  have h2 : some (roundTo ((20.3 : ℚ) * 0.9) 1) = some ((20.3 : ℚ) * 0.9) := by
    have := congrArg (fun t : ℤ × ℤ × Option ℚ × Option ℚ => t.2.2.1) h
    simpa using this
  have h3 : roundTo ((20.3 : ℚ) * 0.9) 1 = (20.3 : ℚ) * 0.9 := by
    exact Option.some_injective _ h2
  have h4 : pyRound ((20.3 : ℚ) * 0.9 * 10 ^ 1) = 183 := by
    rw [show ((20.3 : ℚ) * 0.9 * 10 ^ 1) = 182.7 by norm_num]
    have := pyRound_eq_high (182.7 : ℚ) 182 (by norm_num) (by norm_num)
    rw [this]
    norm_num
  rw [roundTo, h4] at h3
  norm_num at h3

/-- C10 (amended): on a deload week the suggested targets depend only on the
template's base values and not on the week number: for every style and any
two week numbers the outputs coincide, and they equal
sets = max(1, round(0.6·sets_base)), reps = max(1, round(0.7·reps_base)),
load = round(0.9·load_base, 1), pct = round(0.9·pct_base, 3); no weekly
progression is applied before the deload reduction. -/
theorem c10_deload_week_independent_amended (style : String) (w1 w2 s r : ℤ)
    (l p : Option ℚ) :
    suggestProgression style w1 true s r l p = suggestProgression style w2 true s r l p ∧
    suggestProgression style w1 true s r l p =
      (max 1 (pyRound ((s : ℚ) * 0.6)), max 1 (pyRound ((r : ℚ) * 0.7)),
       l.map (fun L => roundTo (L * 0.9) 1), p.map (fun P => roundTo (P * 0.9) 3)) :=
  ⟨rfl, rfl⟩

/-- C7: monotone non-deload progression. For every exercise style and any two
non-deload weeks w1 < w2 such that (for a dumbbell/kettlebell row with a
configured load) the rep cap is not exceeded by week w2, sets are unchanged
(equal to the base) and the computed reps/time, load and %1RM for w2 are each
at least those for w1. -/
theorem c7_monotone_nondeload (style : String) (s r : ℤ) (l p : Option ℚ) (w1 w2 : ℤ)
    (h12 : w1 < w2)
    (hcap : style = "db_kb" → ∀ L : ℚ, l = some L → r + (w2 - 1) * 1 ≤ 12) :
    (suggestProgression style w1 false s r l p).1 = s ∧
    (suggestProgression style w2 false s r l p).1 = s ∧
    (suggestProgression style w1 false s r l p).2.1 ≤ (suggestProgression style w2 false s r l p).2.1 ∧
    optionLeQ (suggestProgression style w1 false s r l p).2.2.1
      (suggestProgression style w2 false s r l p).2.2.1 = true ∧
    optionLeQ (suggestProgression style w1 false s r l p).2.2.2
      (suggestProgression style w2 false s r l p).2.2.2 = true := by
  by_cases hiso : style = "isometric" ∨ style = "bodyweight"
  · rw [suggest_iso_eval _ w1 s r l p hiso, suggest_iso_eval _ w2 s r l p hiso]
    refine ⟨rfl, rfl, by dsimp only; omega, optionLeQ_refl l, optionLeQ_refl p⟩
  by_cases hcond : style = "conditioning"
  · rw [suggest_conditioning_eval _ w1 s r l p hcond, suggest_conditioning_eval _ w2 s r l p hcond]
    refine ⟨rfl, rfl, by dsimp only; omega, optionLeQ_refl l, optionLeQ_refl p⟩
  by_cases hdb : style = "db_kb"
  · cases l with
    | none =>
        rw [suggest_dbkb_noload _ w1 s r p hdb, suggest_dbkb_noload _ w2 s r p hdb]
        refine ⟨rfl, rfl, by dsimp only; omega, optionLeQ_refl none, optionLeQ_refl p⟩
    | some L =>
        have hc2 : r + (w2 - 1) * 1 ≤ 12 := hcap hdb L rfl
        have hc1 : r + (w1 - 1) * 1 ≤ 12 := by omega
        rw [suggest_dbkb_load_steady _ w1 s r L p hdb hc1,
            suggest_dbkb_load_steady _ w2 s r L p hdb hc2]
        refine ⟨rfl, rfl, by dsimp only; omega, optionLeQ_refl (some L), optionLeQ_refl p⟩
  by_cases hbar : style = "barbell"
  · have hw12 : ((w1 : ℚ) - 1) ≤ (w2 : ℚ) - 1 := by
      have : (w1 : ℚ) ≤ w2 := by exact_mod_cast le_of_lt h12
      linarith
    cases l with
    | some L =>
        rw [suggest_barbell_load _ w1 s r L p hbar, suggest_barbell_load _ w2 s r L p hbar]
        refine ⟨rfl, rfl, le_refl r, ?_, optionLeQ_refl p⟩
        exact optionLeQ_some _ _ (roundTo_mono 1 (by nlinarith))
    | none =>
        cases p with
        | some P =>
            rw [suggest_barbell_pct _ w1 s r P hbar, suggest_barbell_pct _ w2 s r P hbar]
            refine ⟨rfl, rfl, le_refl r, optionLeQ_refl none, ?_⟩
            exact optionLeQ_some _ _ (roundTo_mono 3 (by nlinarith))
        | none =>
            rw [suggest_barbell_none _ w1 s r hbar, suggest_barbell_none _ w2 s r hbar]
            exact ⟨rfl, rfl, le_refl r, optionLeQ_refl none, optionLeQ_refl none⟩
  · rw [suggest_generic_eval _ w1 s r l p hiso hcond hdb hbar,
        suggest_generic_eval _ w2 s r l p hiso hcond hdb hbar]
    refine ⟨rfl, rfl, by dsimp only; omega, optionLeQ_refl l, optionLeQ_refl p⟩

theorem c7_monotone_nondeload_witness :
    ((2:ℤ) < 5) ∧
    (suggestProgression "barbell" 2 false 4 6 (some 40) none).1 = 4 ∧
    (suggestProgression "barbell" 5 false 4 6 (some 40) none).1 = 4 ∧
    (suggestProgression "barbell" 2 false 4 6 (some 40) none).2.1 ≤
      (suggestProgression "barbell" 5 false 4 6 (some 40) none).2.1 ∧
    optionLeQ (suggestProgression "barbell" 2 false 4 6 (some 40) none).2.2.1
      (suggestProgression "barbell" 5 false 4 6 (some 40) none).2.2.1 = true ∧
    optionLeQ (suggestProgression "barbell" 2 false 4 6 (some 40) none).2.2.2
      (suggestProgression "barbell" 5 false 4 6 (some 40) none).2.2.2 = true := by
  refine ⟨by norm_num, ?_⟩
  exact c7_monotone_nondeload "barbell" 4 6 (some 40) none 2 5 (by norm_num)
    (by intro h; exact absurd h (by simp))

/-! Arithmetic facts about the deload reductions, used for C4. -/

theorem deload_sets_lt (s : ℤ) (hs : 2 ≤ s) : max 1 (pyRound ((s : ℚ) * 0.6)) < s := by
  have h1 : (pyRound ((s : ℚ) * 0.6) : ℚ) ≤ (s : ℚ) * 0.6 + 1/2 := pyRound_le _
  have hsq : (2 : ℚ) ≤ (s : ℚ) := by exact_mod_cast hs
  have h2 : (s : ℚ) * 0.6 + 1/2 < (s : ℚ) := by nlinarith
  have h3 : pyRound ((s : ℚ) * 0.6) < s := by exact_mod_cast lt_of_le_of_lt h1 h2
  exact max_lt (by omega) h3

theorem deload_reps_lt (r : ℤ) (hr : 2 ≤ r) : max 1 (pyRound ((r : ℚ) * 0.7)) < r := by
  have h1 : (pyRound ((r : ℚ) * 0.7) : ℚ) ≤ (r : ℚ) * 0.7 + 1/2 := pyRound_le _
  have hrq : (2 : ℚ) ≤ (r : ℚ) := by exact_mod_cast hr
  have h2 : (r : ℚ) * 0.7 + 1/2 < (r : ℚ) := by nlinarith
  have h3 : pyRound ((r : ℚ) * 0.7) < r := by exact_mod_cast lt_of_le_of_lt h1 h2
  exact max_lt (by omega) h3

theorem deload_sets_at_one : max 1 (pyRound (((1 : ℤ) : ℚ) * 0.6)) = 1 := by
  have h : pyRound (((1 : ℤ) : ℚ) * 0.6) = 1 := by
    have := pyRound_eq_high (((1 : ℤ) : ℚ) * 0.6) 0 (by norm_num) (by norm_num)
    omega
  rw [h]
  exact max_self 1

theorem deload_reps_at_one : max 1 (pyRound (((1 : ℤ) : ℚ) * 0.7)) = 1 := by
  have h : pyRound (((1 : ℤ) : ℚ) * 0.7) = 1 := by
    have := pyRound_eq_high (((1 : ℤ) : ℚ) * 0.7) 0 (by norm_num) (by norm_num)
    omega
  rw [h]
  exact max_self 1

theorem deload_volume_lt (s r : ℤ) (hs : 1 ≤ s) (hr : 1 ≤ r) (hsr : 2 ≤ s * r) :
    max 1 (pyRound ((s : ℚ) * 0.6)) * max 1 (pyRound ((r : ℚ) * 0.7)) < s * r := by
  rcases eq_or_lt_of_le hs with hs1 | hs2
  · have hr2 : 2 ≤ r := by nlinarith
    rw [← hs1, deload_sets_at_one, one_mul]
    calc max 1 (pyRound ((r : ℚ) * 0.7)) < r := deload_reps_lt r hr2
      _ = 1 * r := (one_mul r).symm
  · rcases eq_or_lt_of_le hr with hr1 | hr2
    · rw [← hr1, deload_reps_at_one, mul_one]
      calc max 1 (pyRound ((s : ℚ) * 0.6)) < s := deload_sets_lt s (by omega)
        _ = s * 1 := (mul_one s).symm
    · have ha : max 1 (pyRound ((s : ℚ) * 0.6)) ≤ s - 1 := by
        have := deload_sets_lt s (by omega); omega
      have hb : max 1 (pyRound ((r : ℚ) * 0.7)) ≤ r - 1 := by
        have := deload_reps_lt r (by omega); omega
      have ha1 : (1 : ℤ) ≤ max 1 (pyRound ((s : ℚ) * 0.6)) := le_max_left 1 _
      have hb1 : (1 : ℤ) ≤ max 1 (pyRound ((r : ℚ) * 0.7)) := le_max_left 1 _
      nlinarith

theorem deload_load_lt (m : ℤ) (hm : 6 ≤ m) {Lp : ℚ} (hLp : (m : ℚ) / 10 ≤ Lp) :
    roundTo ((m : ℚ) / 10 * 0.9) 1 < Lp := by
  have h1 := roundTo_le ((m : ℚ) / 10 * 0.9) 1
  have hm' : (6 : ℚ) ≤ (m : ℚ) := by exact_mod_cast hm
  have h2 : (m : ℚ) / 10 * 0.9 + 1 / (2 * 10 ^ 1) < (m : ℚ) / 10 := by nlinarith
  linarith

theorem deload_pct_lt (m : ℤ) (hm : 6 ≤ m) {Pp : ℚ} (hPp : (m : ℚ) / 1000 ≤ Pp) :
    roundTo ((m : ℚ) / 1000 * 0.9) 3 < Pp := by
  have h1 := roundTo_le ((m : ℚ) / 1000 * 0.9) 3
  have hm' : (6 : ℚ) ≤ (m : ℚ) := by exact_mod_cast hm
  have h2 : (m : ℚ) / 1000 * 0.9 + 1 / (2 * 10 ^ 3) < (m : ℚ) / 1000 := by nlinarith
  linarith

/-- Shape of a non-deload week's suggestion: sets are the base sets, reps are
at least the base reps, and a configured decimal load / %1RM stays configured
and does not decrease (given that a dumbbell/kettlebell row has not hit the
rep cap in that week). -/
theorem nondeload_components (style : String) (w s r : ℤ) (l p : Option ℚ)
    (hw : 1 ≤ w)
    (hreset : style = "db_kb" → ∀ L : ℚ, l = some L → r + (w - 1) * 1 ≤ 12) :
    (suggestProgression style w false s r l p).1 = s ∧
    r ≤ (suggestProgression style w false s r l p).2.1 ∧
    (∀ L : ℚ, l = some L → (∃ m : ℤ, L = (m : ℚ) / 10) →
      ∃ Lp : ℚ, (suggestProgression style w false s r l p).2.2.1 = some Lp ∧ L ≤ Lp) ∧
    (∀ P : ℚ, p = some P → (∃ m : ℤ, P = (m : ℚ) / 1000) →
      ∃ Pp : ℚ, (suggestProgression style w false s r l p).2.2.2 = some Pp ∧ P ≤ Pp) := by
  have hw0 : (0 : ℚ) ≤ ((w : ℚ) - 1) := by
    have : (1 : ℚ) ≤ (w : ℚ) := by exact_mod_cast hw
    linarith
  by_cases hiso : style = "isometric" ∨ style = "bodyweight"
  · rw [suggest_iso_eval _ w s r l p hiso]
    refine ⟨rfl, by dsimp only; omega, ?_, ?_⟩
    · intro L hl _; subst hl; exact ⟨L, rfl, le_refl L⟩
    · intro P hp _; subst hp; exact ⟨P, rfl, le_refl P⟩
  by_cases hcond : style = "conditioning"
  · rw [suggest_conditioning_eval _ w s r l p hcond]
    refine ⟨rfl, by dsimp only; omega, ?_, ?_⟩
    · intro L hl _; subst hl; exact ⟨L, rfl, le_refl L⟩
    · intro P hp _; subst hp; exact ⟨P, rfl, le_refl P⟩
  by_cases hdb : style = "db_kb"
  · cases l with
    | none =>
        rw [suggest_dbkb_noload _ w s r p hdb]
        refine ⟨rfl, by dsimp only; omega, ?_, ?_⟩
        · intro L hl _; exact absurd hl (by simp)
        · intro P hp _; subst hp; exact ⟨P, rfl, le_refl P⟩
    | some L =>
        have hc : r + (w - 1) * 1 ≤ 12 := hreset hdb L rfl
        rw [suggest_dbkb_load_steady _ w s r L p hdb hc]
        refine ⟨rfl, by dsimp only; omega, ?_, ?_⟩
        · intro L' hl _
          have : L = L' := by injection hl
          subst this
          exact ⟨L, rfl, le_refl L⟩
        · intro P hp _; subst hp; exact ⟨P, rfl, le_refl P⟩
  by_cases hbar : style = "barbell"
  · cases l with
    | some L =>
        rw [suggest_barbell_load _ w s r L p hbar]
        refine ⟨rfl, le_refl r, ?_, ?_⟩
        · intro L' hl hdec
          have hLL : L = L' := by injection hl
          subst hLL
          obtain ⟨m, rfl⟩ := hdec
          refine ⟨roundTo ((m : ℚ) / 10 + ((w : ℚ) - 1) * 2.5) 1, ?_, ?_⟩
          · norm_num
          · have hrw : (m : ℚ) / 10 + ((w : ℚ) - 1) * 2.5 = ((m + 25 * (w - 1) : ℤ) : ℚ) / 10 ^ 1 := by
              push_cast; ring
            rw [hrw, roundTo_exact]
            have h25 : (0 : ℚ) ≤ 25 * ((w : ℚ) - 1) := by linarith
            push_cast
            linarith
        · intro P hp _; subst hp; exact ⟨P, rfl, le_refl P⟩
    | none =>
        cases p with
        | some P =>
            rw [suggest_barbell_pct _ w s r P hbar]
            refine ⟨rfl, le_refl r, ?_, ?_⟩
            · intro L hl _; exact absurd hl (by simp)
            · intro P' hp hdec
              have hPP : P = P' := by injection hp
              subst hPP
              obtain ⟨m, rfl⟩ := hdec
              refine ⟨roundTo ((m : ℚ) / 1000 + ((w : ℚ) - 1) * 0.02) 3, ?_, ?_⟩
              · norm_num
              · have hrw : (m : ℚ) / 1000 + ((w : ℚ) - 1) * 0.02
                    = ((m + 20 * (w - 1) : ℤ) : ℚ) / 10 ^ 3 := by
                  push_cast; ring
                rw [hrw, roundTo_exact]
                have h20 : (0 : ℚ) ≤ 20 * ((w : ℚ) - 1) := by linarith
                push_cast
                linarith
        | none =>
            rw [suggest_barbell_none _ w s r hbar]
            refine ⟨rfl, le_refl r, ?_, ?_⟩
            · intro L hl _; exact absurd hl (by simp)
            · intro P hp _; exact absurd hp (by simp)
  · rw [suggest_generic_eval _ w s r l p hiso hcond hdb hbar]
    refine ⟨rfl, by dsimp only; omega, ?_, ?_⟩
    · intro L hl _; subst hl; exact ⟨L, rfl, le_refl L⟩
    · intro P hp _; subst hp; exact ⟨P, rfl, le_refl P⟩

/-- C4 (counterexample): for a barbell row with 1 base set and 1 base rep and
deload week 4, the deload week's volume (sets × reps) equals 1, exactly the
volume of week 3 — it is not strictly smaller. -/
theorem c4_counterexample :
    (suggestProgression "barbell" 4 true 1 1 (some 20) none).1 *
      (suggestProgression "barbell" 4 true 1 1 (some 20) none).2.1 = 1 ∧
    (suggestProgression "barbell" 3 false 1 1 (some 20) none).1 *
      (suggestProgression "barbell" 3 false 1 1 (some 20) none).2.1 = 1 ∧
    ¬((suggestProgression "barbell" 4 true 1 1 (some 20) none).1 *
        (suggestProgression "barbell" 4 true 1 1 (some 20) none).2.1 <
      (suggestProgression "barbell" 3 false 1 1 (some 20) none).1 *
        (suggestProgression "barbell" 3 false 1 1 (some 20) none).2.1) := by
  have hdl : (suggestProgression "barbell" 4 true 1 1 (some 20) none).1 *
      (suggestProgression "barbell" 4 true 1 1 (some 20) none).2.1 = 1 := by
    rw [suggest_deload_eval]
    dsimp only
    rw [deload_sets_at_one, deload_reps_at_one]
    norm_num
  have hpv : (suggestProgression "barbell" 3 false 1 1 (some 20) none).1 *
      (suggestProgression "barbell" 3 false 1 1 (some 20) none).2.1 = 1 := by
    rw [suggest_barbell_load _ 3 1 1 20 none rfl]
    norm_num
  exact ⟨hdl, hpv, by rw [hdl, hpv]; omega⟩

/-- C4 (amended): restricted to rows whose base volume exceeds a single rep
of a single set (sets_base × reps_base ≥ 2), whose dumbbell/kettlebell rep
cap has not been exceeded in week d−1, and whose configured load is a
multiple of 0.1 kg of at least 0.6 kg (configured %1RM a multiple of 0.001
of at least 0.006): the deload week's computed volume (sets × reps) and its
computed load and %1RM are strictly less than the corresponding values of
the immediately preceding non-deload week d−1. -/
theorem c4_deload_strict_reduction_amended (style : String) (d s r : ℤ) (l p : Option ℚ)
    (hd : 2 ≤ d) (hs : 1 ≤ s) (hr : 1 ≤ r) (hsr : 2 ≤ s * r)
    (hreset : style = "db_kb" → ∀ L : ℚ, l = some L → r + (d - 1 - 1) * 1 ≤ 12)
    (hL : ∀ L : ℚ, l = some L → ∃ m : ℤ, L = (m : ℚ) / 10 ∧ 6 ≤ m)
    (hP : ∀ P : ℚ, p = some P → ∃ m : ℤ, P = (m : ℚ) / 1000 ∧ 6 ≤ m) :
    (suggestProgression style d true s r l p).1 *
        (suggestProgression style d true s r l p).2.1 <
      (suggestProgression style (d - 1) false s r l p).1 *
        (suggestProgression style (d - 1) false s r l p).2.1 ∧
    (∀ L : ℚ, l = some L → ∃ Ld Lp : ℚ,
      (suggestProgression style d true s r l p).2.2.1 = some Ld ∧
      (suggestProgression style (d - 1) false s r l p).2.2.1 = some Lp ∧ Ld < Lp) ∧
    (∀ P : ℚ, p = some P → ∃ Pd Pp : ℚ,
      (suggestProgression style d true s r l p).2.2.2 = some Pd ∧
      (suggestProgression style (d - 1) false s r l p).2.2.2 = some Pp ∧ Pd < Pp) := by
  obtain ⟨h1, h2, h3, h4⟩ :=
    nondeload_components style (d - 1) s r l p (by omega) hreset
  refine ⟨?_, ?_, ?_⟩
  · rw [suggest_deload_eval, h1]
    dsimp only
    calc max 1 (pyRound ((s : ℚ) * 0.6)) * max 1 (pyRound ((r : ℚ) * 0.7))
        < s * r := deload_volume_lt s r hs hr hsr
      _ ≤ s * (suggestProgression style (d - 1) false s r l p).2.1 :=
          mul_le_mul_of_nonneg_left h2 (by omega)
  · intro L hl
    obtain ⟨m, hLm, hm⟩ := hL L hl
    obtain ⟨Lp, hLp_eq, hLp_ge⟩ := h3 L hl ⟨m, hLm⟩
    subst hl
    refine ⟨roundTo (L * 0.9) 1, Lp, by rw [suggest_deload_eval]; rfl, hLp_eq, ?_⟩
    subst hLm
    exact deload_load_lt m hm hLp_ge
  · intro P hp
    obtain ⟨m, hPm, hm⟩ := hP P hp
    obtain ⟨Pp, hPp_eq, hPp_ge⟩ := h4 P hp ⟨m, hPm⟩
    subst hp
    refine ⟨roundTo (P * 0.9) 3, Pp, by rw [suggest_deload_eval]; rfl, hPp_eq, ?_⟩
    subst hPm
    exact deload_pct_lt m hm hPp_ge

theorem c4_deload_strict_reduction_amended_witness :
    ((2:ℤ) ≤ 4 ∧ (2:ℤ) ≤ 3 * 8) ∧
    ((suggestProgression "barbell" 4 true 3 8 (some 60) none).1 *
        (suggestProgression "barbell" 4 true 3 8 (some 60) none).2.1 <
      (suggestProgression "barbell" 3 false 3 8 (some 60) none).1 *
        (suggestProgression "barbell" 3 false 3 8 (some 60) none).2.1 ∧
    (∀ L : ℚ, (some (60:ℚ) : Option ℚ) = some L → ∃ Ld Lp : ℚ,
      (suggestProgression "barbell" 4 true 3 8 (some 60) none).2.2.1 = some Ld ∧
      (suggestProgression "barbell" 3 false 3 8 (some 60) none).2.2.1 = some Lp ∧ Ld < Lp) ∧
    (∀ P : ℚ, (none : Option ℚ) = some P → ∃ Pd Pp : ℚ,
      (suggestProgression "barbell" 4 true 3 8 (some 60) none).2.2.2 = some Pd ∧
      (suggestProgression "barbell" 3 false 3 8 (some 60) none).2.2.2 = some Pp ∧ Pd < Pp)) := by
  refine ⟨⟨by norm_num, by norm_num⟩, ?_⟩
  exact c4_deload_strict_reduction_amended "barbell" 4 3 8 (some 60) none
    (by norm_num) (by norm_num) (by norm_num) (by norm_num)
    (by intro h; exact absurd h (by simp))
    (by intro L hl; exact ⟨600, by injection hl with h; rw [← h]; norm_num, by norm_num⟩)
    (by intro P hp; exact absurd hp (by simp))

/-! The e1RM estimation engine of src/db_store.py: normative standards lookup,
level-to-target-ratio mapping, the estimator, and the unilateral scaler. -/

/-- Python str.lower for the ASCII strings used by this codebase. -/
def strToLower (s : String) : String := String.mk (s.data.map Char.toLower)

/-- Python str.strip (whitespace trim at both ends). -/
def strTrim (s : String) : String :=
  String.mk (((s.data.dropWhile Char.isWhitespace).reverse.dropWhile Char.isWhitespace).reverse)

/-- One row of the norm_strength_standards table. -/
structure NormRow where
  exercise_id : ℤ
  sex : String
  metric : String
  age_min : ℤ
  age_max : ℤ
  poor : ℚ
  fair : ℚ
  good : ℚ
  excellent : ℚ
deriving DecidableEq, Repr

/-- db_store.get_norm_standard: select the bands for (exercise, sex, metric)
whose [age_min, age_max] interval contains the age, ordered by age_min
descending, and return the first (modelling ORDER BY age_min DESC LIMIT 1;
among equal age_min values the earliest row wins). -/
def getNormStandard (table : List NormRow) (exercise_id : ℤ) (sex : String)
    (age : ℤ) (metric : String) : Option NormRow :=
  let matching := table.filter (fun nr =>
    nr.exercise_id == exercise_id && nr.sex == sex && nr.metric == metric &&
    decide (nr.age_min ≤ age) && decide (age ≤ nr.age_max))
  matching.foldl (fun acc nr =>
    match acc with
    | none => some nr
    | some best => if best.age_min < nr.age_min then some nr else some best) none

/-- db_store._level_to_target_ratio. -/
def levelToTargetRatio (poor fair good excellent : ℚ) (level : String) : ℚ :=
  let lvl := strToLower (if level = "" then "intermediate" else level)
  if lvl = "novice" then fair
  else if lvl = "intermediate" then (fair + good) / 2
  else if lvl = "advanced" then good
  else if lvl = "expert" then (good + excellent) / 2
  else (fair + good) / 2

/-- The dict returned by db_store.estimate_e1rm_kg_for_exercise; the free-text
notes entry is omitted, and band_used keeps the (age_min, age_max) pair that
the code formats into a string. -/
structure EstimateResult where
  estimated_1rm_kg : Option ℚ
  estimated_rel_1rm_bw : Option ℚ
  method : String
  band_used : Option (ℤ × ℤ)
deriving DecidableEq, Repr

/-- db_store.estimate_e1rm_kg_for_exercise. A missing bodyweight is none;
Python treats bw = 0.0 as falsy, which coincides with the bw ≤ 0 check. -/
def estimateE1rmKgForExercise (table : List NormRow) (patient_sex : String)
    (patient_age : ℤ) (patient_bw_kg : Option ℚ) (presumed_level : String)
    (exercise_id : ℤ) (metric : String) : EstimateResult :=
  if metric = "pullup_reps" then
    ⟨none, none, "not_applicable_pullup", none⟩
  else
    match patient_bw_kg with
    | none => ⟨none, none, "missing_bodyweight", none⟩
    | some bw =>
      if bw ≤ 0 then ⟨none, none, "missing_bodyweight", none⟩
      else
        match getNormStandard table exercise_id patient_sex patient_age metric with
        | none => ⟨none, none, "no_norm_found", none⟩
        | some nr =>
          let target_rel := levelToTargetRatio nr.poor nr.fair nr.good nr.excellent presumed_level
          ⟨some (target_rel * bw), some target_rel, "norm_level_band_v1",
           some (nr.age_min, nr.age_max)⟩

/-- db_store.estimate_unilateral_from_bilateral (Option A anchor scaling). -/
def estimateUnilateralFromBilateral (bilateral_e1rm_kg : Option ℚ)
    (movement : String) (presumed_level : String) : Option ℚ :=
  match bilateral_e1rm_kg with
  | none => none
  | some x =>
    let lvl := strToLower (if presumed_level = "" then "intermediate" else presumed_level)
    let mv := strTrim (strToLower (if movement = "" then "" else movement))
    let base : ℚ :=
      if mv = "bss" ∨ mv = "stepup" then
        if lvl = "novice" then 0.35
        else if lvl = "advanced" then 0.45
        else if lvl = "expert" then 0.50
        else 0.40
      else if mv = "sl_rdl" then
        if lvl = "novice" then 0.30
        else if lvl = "advanced" then 0.40
        else if lvl = "expert" then 0.45
        else 0.35
      else 0.35
    some (x * base)

/-- C5: with a non-pull-up metric, positive bodyweight, and a matching
normative band, the estimator returns target_ratio × bodyweight together with
the ratio, the method tag norm_level_band_v1 and the matched age band; and the
level-to-ratio mapping is novice → fair, intermediate → midpoint(fair, good),
advanced → good, expert → midpoint(good, excellent), with any unrecognized
level falling back to the intermediate rule. -/
theorem c5_estimator_level_band (table : List NormRow) (sex : String) (age : ℤ)
    (bw : ℚ) (level : String) (exercise_id : ℤ) (metric : String) (nr : NormRow)
    (hm : metric ≠ "pullup_reps") (hbw : 0 < bw)
    (hnorm : getNormStandard table exercise_id sex age metric = some nr) :
    estimateE1rmKgForExercise table sex age (some bw) level exercise_id metric =
      ⟨some (levelToTargetRatio nr.poor nr.fair nr.good nr.excellent level * bw),
       some (levelToTargetRatio nr.poor nr.fair nr.good nr.excellent level),
       "norm_level_band_v1", some (nr.age_min, nr.age_max)⟩ ∧
    (∀ pr f g e : ℚ,
      levelToTargetRatio pr f g e "novice" = f ∧
      levelToTargetRatio pr f g e "intermediate" = (f + g) / 2 ∧
      levelToTargetRatio pr f g e "advanced" = g ∧
      levelToTargetRatio pr f g e "expert" = (g + e) / 2) ∧
    (∀ (pr f g e : ℚ) (lvl : String),
      strToLower (if lvl = "" then "intermediate" else lvl) ∉
        (["novice", "intermediate", "advanced", "expert"] : List String) →
      levelToTargetRatio pr f g e lvl = (f + g) / 2) := by
  refine ⟨?_, ?_, ?_⟩
  · unfold estimateE1rmKgForExercise
    rw [if_neg hm]
    dsimp only
    rw [if_neg (not_le.mpr hbw), hnorm]
  · intro pr f g e
    exact ⟨rfl, rfl, rfl, rfl⟩
  · intro pr f g e lvl hmem
    simp only [List.mem_cons, List.not_mem_nil, or_false, not_or] at hmem
    obtain ⟨h1, h2, h3, h4⟩ := hmem
    unfold levelToTargetRatio
    rw [if_neg h1, if_neg h2, if_neg h3, if_neg h4]

/-- Demonstration normative table for the witness: Back Squat (exercise 1),
male, relative-1RM metric, band 18-39 with fair = 1.00 and good = 1.20. -/
def demoNorms : List NormRow :=
  [⟨1, "male", "rel_1rm_bw", 18, 39, 0.8, 1.0, 1.2, 1.5⟩]

theorem c5_estimator_level_band_witness :
    (("rel_1rm_bw" : String) ≠ "pullup_reps") ∧ ((0:ℚ) < 80) ∧
    getNormStandard demoNorms 1 "male" 30 "rel_1rm_bw" =
      some ⟨1, "male", "rel_1rm_bw", 18, 39, 0.8, 1.0, 1.2, 1.5⟩ ∧
    estimateE1rmKgForExercise demoNorms "male" 30 (some 80) "intermediate" 1 "rel_1rm_bw" =
      ⟨some (levelToTargetRatio 0.8 1.0 1.2 1.5 "intermediate" * 80),
       some (levelToTargetRatio 0.8 1.0 1.2 1.5 "intermediate"),
       "norm_level_band_v1", some (18, 39)⟩ ∧
    (estimateE1rmKgForExercise demoNorms "male" 30 (some 80) "intermediate" 1 "rel_1rm_bw").estimated_1rm_kg
      = some 88 := by
  have h := c5_estimator_level_band demoNorms "male" 30 80 "intermediate" 1 "rel_1rm_bw"
    ⟨1, "male", "rel_1rm_bw", 18, 39, 0.8, 1.0, 1.2, 1.5⟩
    (by simp) (by norm_num) rfl
  refine ⟨by simp, by norm_num, rfl, h.1, ?_⟩
  rw [h.1]
  have hmap := (h.2.1 0.8 1.0 1.2 1.5).2.1
  simp only [hmap]
  norm_num

/-- Python falsy-or-nonpositive bodyweight check of the estimator. -/
def bwMissing (bw : Option ℚ) : Bool :=
  match bw with
  | none => true
  | some b => decide (b ≤ 0)

/-- C6: the estimator returns a null e1RM — with one of the three non-error
method tags and without raising — whenever the metric is the pull-up
rep-count metric, or the bodyweight is missing or nonpositive, or no
normative band matches, whatever the other inputs are. -/
theorem c6_estimator_null_propagation (table : List NormRow) (sex : String)
    (age : ℤ) (bw : Option ℚ) (level : String) (exercise_id : ℤ) (metric : String)
    (h : metric = "pullup_reps" ∨ bwMissing bw = true ∨
      getNormStandard table exercise_id sex age metric = none) :
    (estimateE1rmKgForExercise table sex age bw level exercise_id metric).estimated_1rm_kg
      = none ∧
    (estimateE1rmKgForExercise table sex age bw level exercise_id metric).method ∈
      (["not_applicable_pullup", "missing_bodyweight", "no_norm_found"] : List String) := by
  by_cases hm : metric = "pullup_reps"
  · unfold estimateE1rmKgForExercise
    rw [if_pos hm]
    exact ⟨rfl, by simp⟩
  · rcases h with h | h | h
    · exact absurd h hm
    · cases bw with
      | none =>
          unfold estimateE1rmKgForExercise
          rw [if_neg hm]
          exact ⟨rfl, by simp⟩
      | some b =>
          have hb : b ≤ 0 := by simpa [bwMissing] using h
          unfold estimateE1rmKgForExercise
          rw [if_neg hm]
          dsimp only
          rw [if_pos hb]
          exact ⟨rfl, by simp⟩
    · cases bw with
      | none =>
          unfold estimateE1rmKgForExercise
          rw [if_neg hm]
          exact ⟨rfl, by simp⟩
      | some b =>
          by_cases hb : b ≤ 0
          · unfold estimateE1rmKgForExercise
            rw [if_neg hm]
            dsimp only
            rw [if_pos hb]
            exact ⟨rfl, by simp⟩
          · unfold estimateE1rmKgForExercise
            rw [if_neg hm]
            dsimp only
            rw [if_neg hb, h]
            exact ⟨rfl, by simp⟩

theorem c6_estimator_null_propagation_witness :
    (("pullup_reps" : String) = "pullup_reps" ∨ bwMissing (some 80) = true ∨
      getNormStandard demoNorms 1 "male" 30 "pullup_reps" = none) ∧
    (estimateE1rmKgForExercise demoNorms "male" 30 (some 80) "novice" 1 "pullup_reps").estimated_1rm_kg
      = none ∧
    (estimateE1rmKgForExercise demoNorms "male" 30 (some 80) "novice" 1 "pullup_reps").method ∈
      (["not_applicable_pullup", "missing_bodyweight", "no_norm_found"] : List String) := by
  refine ⟨Or.inl rfl, ?_⟩
  exact c6_estimator_null_propagation demoNorms "male" 30 (some 80) "novice" 1 "pullup_reps"
    (Or.inl rfl)

/-- C8 (counterexample): for the non-null bilateral input 0 kg the scaler
returns 0 kg, which is not strictly less than the input. -/
theorem c8_counterexample :
    estimateUnilateralFromBilateral (some 0) "bss" "novice" = some 0 ∧ ¬((0:ℚ) < 0) := by
  constructor
  · have h : estimateUnilateralFromBilateral (some 0) "bss" "novice"
        = some ((0:ℚ) * 0.35) := rfl
    rw [h]
    norm_num
  · norm_num

/-- C8 (amended): for every non-null, strictly positive bilateral e1RM, every
movement key (defined or fallback) and every presumed level, the scaler
returns a value strictly less than the input (every applied fraction is
below 1); a null input returns null. -/
theorem c8_unilateral_strict_bound_amended (x : ℚ) (movement level : String)
    (hx : 0 < x) :
    (∃ y : ℚ, estimateUnilateralFromBilateral (some x) movement level = some y ∧ y < x) ∧
    estimateUnilateralFromBilateral none movement level = none := by
  refine ⟨?_, rfl⟩
  unfold estimateUnilateralFromBilateral
  dsimp only
  refine ⟨_, rfl, ?_⟩
  split_ifs <;> · apply mul_lt_of_lt_one_right hx; norm_num

theorem c8_unilateral_strict_bound_amended_witness :
    ((0:ℚ) < 100) ∧
    (∃ y : ℚ, estimateUnilateralFromBilateral (some 100) "bss" "novice" = some y ∧ y < 100) ∧
    estimateUnilateralFromBilateral none "bss" "novice" = none := by
  refine ⟨by norm_num, ?_⟩
  exact c8_unilateral_strict_bound_amended 100 "bss" "novice" (by norm_num)

/-! The persistence model: the SQLite tables touched by the S&C block
generation path of src/db_store.py, as lists of rows, and the services-layer
block creation pipeline of src/services.py. -/

/-- Containment of a character sequence in another at any position. -/
def charsContain (sub : List Char) : List Char → Bool
  | [] => sub.isEmpty
  | a :: t => sub.isPrefixOf (a :: t) || charsContain sub t

/-- Python substring containment (sub in hay). -/
def strContains (hay sub : String) : Bool :=
  charsContain sub.data hay.data

/-- One row of the exercises table:
(id, name, category, laterality, implement, primary_muscles, notes). -/
structure Exercise where
  id : ℤ
  name : String
  category : Option String
  laterality : Option String
  implement : Option String
  primary_muscles : Option String
  notes : Option String
deriving DecidableEq, Repr

/-- services._parse_exercise_style (identical to app._parse_exercise_style):
an ordered cascade classifying an exercise row into a progression style. -/
def parseExerciseStyle (ex_row : Option Exercise) : String :=
  match ex_row with
  | none => "unknown"
  | some e =>
    let name_l := strToLower e.name
    let cat := strToLower (e.category.getD "")
    let impl := strToLower (e.implement.getD "")
    let nts := strToLower (e.notes.getD "")
    if strContains name_l "isometric" || strContains nts "isometric" ||
        strContains name_l "wall sit" || strContains name_l "plank" then "isometric"
    else if cat == "conditioning" || strContains name_l "bike erg" ||
        strContains name_l "erg" then "conditioning"
    else if impl == "dumbbell" || impl == "kettlebell" || impl == "band" then "db_kb"
    else if impl == "barbell" then "barbell"
    else if impl == "bodyweight" then "bodyweight"
    else "generic"

/-- One row of sc_blocks. -/
structure ScBlock where
  id : ℤ
  patient_id : ℤ
  start_date : ℤ
  weeks : ℤ
  model : String
  deload_week : ℤ
  sessions_per_week : ℤ
  goal : String
  notes : Option String
deriving DecidableEq, Repr

/-- One row of sc_weeks. -/
structure ScWeek where
  id : ℤ
  block_id : ℤ
  week_no : ℤ
  week_start : ℤ
  focus : Option String
  deload_flag : Bool
  notes : Option String
deriving DecidableEq, Repr

/-- One row of sc_sessions. -/
structure ScSession where
  id : ℤ
  week_id : ℤ
  session_label : String
  day_hint : Option String
  notes : Option String
deriving DecidableEq, Repr

/-- One row of sc_session_exercises: planned target columns plus the
athlete-reported actual columns (actuals default to empty/0 on insert). -/
structure ScSessionExercise where
  id : ℤ
  session_id : ℤ
  exercise_id : ℤ
  sets_target : ℤ
  reps_target : ℤ
  pct_1rm_target : Option ℚ
  load_kg_target : Option ℚ
  rpe_target : Option ℤ
  rest_sec_target : Option ℤ
  intent : Option String
  notes : Option String
  sets_actual : Option ℤ
  reps_actual : Option ℤ
  load_kg_actual : Option ℚ
  completed_flag : Bool
  actual_notes : Option String
deriving DecidableEq, Repr

/-- One template-editor row handed to services.create_sc_block
(api.ScExerciseTemplate: exercise_id, sets, reps, pct, load). -/
structure TemplateRow where
  exercise_id : Option ℤ
  sets : ℤ
  reps : ℤ
  load : Option ℚ
  pct : Option ℚ
deriving DecidableEq, Repr

/-- The persistence store: table contents plus per-table autoincrement
counters. patients holds (id, owner_user_id); coach_patient_access holds
(coach_user_id, patient_id). -/
structure Store where
  exercises : List Exercise
  patients : List (ℤ × String)
  coach_patient_access : List (String × ℤ)
  sc_blocks : List ScBlock
  sc_weeks : List ScWeek
  sc_sessions : List ScSession
  sc_session_exercises : List ScSessionExercise
  next_block_id : ℤ
  next_week_id : ℤ
  next_session_id : ℤ
  next_row_id : ℤ
deriving DecidableEq, Repr

/-- db_store._user_can_access_patient. The branch probing for a legacy
patient_access table is omitted: no code in the repository creates that
table, so the branch is dead on this schema; the coach path checks the
coach_patient_access grants and the remaining (client) path checks patient
ownership. -/
def userCanAccessPatient (st : Store) (user_id role : String) (patient_id : ℤ) : Bool :=
  if !(role == "coach" || role == "client") then false
  else if role == "super_admin" then st.coach_patient_access.contains (user_id, patient_id)
  else if role == "coach" then st.coach_patient_access.contains (user_id, patient_id)
  else st.patients.contains (patient_id, user_id)

/-- db_store._assert_coach. -/
def assertCoach (role : String) : Except String Unit :=
  if role == "coach" || role == "super_admin" then .ok ()
  else .error "User does not have coach permissions."

/-- db_store._assert_patient_access. -/
def assertPatientAccess (st : Store) (user_id role : String) (patient_id : ℤ) :
    Except String Unit :=
  if userCanAccessPatient st user_id role patient_id then .ok ()
  else .error "User is not permitted to access this patient."

/-- db_store.get_exercise. -/
def getExercise (st : Store) (exercise_id : ℤ) : Option Exercise :=
  st.exercises.find? (fun e => e.id == exercise_id)

/-- db_store._get_block_patient_id. -/
def getBlockPatientId (st : Store) (block_id : ℤ) : Option ℤ :=
  (st.sc_blocks.find? (fun b => b.id == block_id)).map (fun b => b.patient_id)

/-- db_store._assert_block_access. -/
def assertBlockAccess (st : Store) (user_id role : String) (block_id : ℤ) :
    Except String Unit :=
  match getBlockPatientId st block_id with
  | none => .error "Block not found."
  | some pid => assertPatientAccess st user_id role pid

/-- db_store._get_week_patient_id. -/
def getWeekPatientId (st : Store) (week_id : ℤ) : Option ℤ :=
  match st.sc_weeks.find? (fun w => w.id == week_id) with
  | none => none
  | some w => getBlockPatientId st w.block_id

/-- db_store._assert_week_access. -/
def assertWeekAccess (st : Store) (user_id role : String) (week_id : ℤ) :
    Except String Unit :=
  match getWeekPatientId st week_id with
  | none => .error "Week not found."
  | some pid => assertPatientAccess st user_id role pid

/-- db_store._get_session_patient_id. -/
def getSessionPatientId (st : Store) (session_id : ℤ) : Option ℤ :=
  match st.sc_sessions.find? (fun s => s.id == session_id) with
  | none => none
  | some s => getWeekPatientId st s.week_id

/-- db_store._assert_session_access. -/
def assertSessionAccess (st : Store) (user_id role : String) (session_id : ℤ) :
    Except String Unit :=
  match getSessionPatientId st session_id with
  | none => .error "Session not found."
  | some pid => assertPatientAccess st user_id role pid

/-- db_store.create_sc_block: plain INSERT into sc_blocks, no validation. -/
def createScBlock (st : Store) (patient_id start_date : ℤ) (goal : String)
    (notes : Option String) (weeks : ℤ) (model : String) (deload_week : ℤ)
    (sessions_per_week : ℤ) : ℤ × Store :=
  let b : ScBlock :=
    ⟨st.next_block_id, patient_id, start_date, weeks, model, deload_week,
     sessions_per_week, goal, notes⟩
  (st.next_block_id,
   { st with sc_blocks := st.sc_blocks ++ [b], next_block_id := st.next_block_id + 1 })

/-- db_store.create_sc_block_for_user: coach and patient-access checks, then
the unconditional insert. -/
def createScBlockForUser (st : Store) (user_id role : String) (patient_id start_date : ℤ)
    (goal : String) (notes : Option String) (weeks : ℤ) (model : String)
    (deload_week sessions_per_week : ℤ) : Except String (ℤ × Store) := do
  let _ ← assertCoach role
  let _ ← assertPatientAccess st user_id role patient_id
  pure (createScBlock st patient_id start_date goal notes weeks model deload_week
    sessions_per_week)

/-- db_store.upsert_sc_week: INSERT with ON CONFLICT(block_id, week_no)
DO UPDATE, returning the row id. -/
def upsertScWeek (st : Store) (block_id week_no week_start : ℤ) (focus : Option String)
    (deload_flag : Bool) (notes : Option String) : ℤ × Store :=
  match st.sc_weeks.find? (fun w => w.block_id == block_id && w.week_no == week_no) with
  | some w =>
    (w.id,
     { st with sc_weeks := st.sc_weeks.map (fun x =>
        if x.block_id == block_id && x.week_no == week_no then
          { x with week_start := week_start, focus := focus,
                   deload_flag := deload_flag, notes := notes }
        else x) })
  | none =>
    let w : ScWeek := ⟨st.next_week_id, block_id, week_no, week_start, focus, deload_flag, notes⟩
    (st.next_week_id,
     { st with sc_weeks := st.sc_weeks ++ [w], next_week_id := st.next_week_id + 1 })

/-- db_store.upsert_sc_week_for_user. -/
def upsertScWeekForUser (st : Store) (user_id role : String) (block_id week_no week_start : ℤ)
    (focus : Option String) (deload_flag : Bool) (notes : Option String) :
    Except String (ℤ × Store) := do
  let _ ← assertCoach role
  let _ ← assertBlockAccess st user_id role block_id
  pure (upsertScWeek st block_id week_no week_start focus deload_flag notes)

/-- db_store.upsert_sc_session: INSERT with ON CONFLICT(week_id, session_label)
DO UPDATE, returning the row id. -/
def upsertScSession (st : Store) (week_id : ℤ) (session_label : String)
    (day_hint notes : Option String) : ℤ × Store :=
  match st.sc_sessions.find? (fun s => s.week_id == week_id && s.session_label == session_label) with
  | some s =>
    (s.id,
     { st with sc_sessions := st.sc_sessions.map (fun x =>
        if x.week_id == week_id && x.session_label == session_label then
          { x with day_hint := day_hint, notes := notes }
        else x) })
  | none =>
    let s : ScSession := ⟨st.next_session_id, week_id, session_label, day_hint, notes⟩
    (st.next_session_id,
     { st with sc_sessions := st.sc_sessions ++ [s],
               next_session_id := st.next_session_id + 1 })

/-- db_store.upsert_sc_session_for_user. -/
def upsertScSessionForUser (st : Store) (user_id role : String) (week_id : ℤ)
    (session_label : String) (day_hint notes : Option String) :
    Except String (ℤ × Store) := do
  let _ ← assertCoach role
  let _ ← assertWeekAccess st user_id role week_id
  pure (upsertScSession st week_id session_label day_hint notes)

/-- db_store.clear_sc_session_exercises. -/
def clearScSessionExercises (st : Store) (session_id : ℤ) : Store :=
  { st with sc_session_exercises :=
      st.sc_session_exercises.filter (fun x => !(x.session_id == session_id)) }

/-- db_store.clear_sc_session_exercises_for_user. -/
def clearScSessionExercisesForUser (st : Store) (user_id role : String) (session_id : ℤ) :
    Except String Store := do
  let _ ← assertCoach role
  let _ ← assertSessionAccess st user_id role session_id
  pure (clearScSessionExercises st session_id)

/-- db_store.add_sc_session_exercise: INSERT of a target row; the actual
columns take their schema defaults (NULL, completed_flag 0). -/
def addScSessionExercise (st : Store) (session_id exercise_id sets_target reps_target : ℤ)
    (pct_1rm_target load_kg_target : Option ℚ) (rpe_target rest_sec_target : Option ℤ)
    (intent notes : Option String) : ℤ × Store :=
  let r : ScSessionExercise :=
    ⟨st.next_row_id, session_id, exercise_id, sets_target, reps_target,
     pct_1rm_target, load_kg_target, rpe_target, rest_sec_target, intent, notes,
     none, none, none, false, none⟩
  (st.next_row_id,
   { st with sc_session_exercises := st.sc_session_exercises ++ [r],
             next_row_id := st.next_row_id + 1 })

/-- db_store.add_sc_session_exercise_for_user. -/
def addScSessionExerciseForUser (st : Store) (user_id role : String)
    (session_id exercise_id sets_target reps_target : ℤ)
    (pct_1rm_target load_kg_target : Option ℚ) (rpe_target rest_sec_target : Option ℤ)
    (intent notes : Option String) : Except String (ℤ × Store) := do
  let _ ← assertCoach role
  let _ ← assertSessionAccess st user_id role session_id
  pure (addScSessionExercise st session_id exercise_id sets_target reps_target
    pct_1rm_target load_kg_target rpe_target rest_sec_target intent notes)

/-- The per-row effect of the UPDATE statement in
db_store.update_sc_session_exercise_actual: rows whose id matches get their
five actual columns replaced; every other column and row is untouched. -/
def applyActualUpdate (row_id : ℤ) (sets_actual reps_actual : Option ℤ)
    (load_kg_actual : Option ℚ) (completed_flag : Bool) (actual_notes : Option String)
    (x : ScSessionExercise) : ScSessionExercise :=
  if x.id = row_id then
    { x with sets_actual := sets_actual, reps_actual := reps_actual,
             load_kg_actual := load_kg_actual, completed_flag := completed_flag,
             actual_notes := actual_notes }
  else x

/-- db_store.update_sc_session_exercise_actual over the sc_session_exercises
table contents. -/
def updateScSessionExerciseActual (rows : List ScSessionExercise) (row_id : ℤ)
    (sets_actual reps_actual : Option ℤ) (load_kg_actual : Option ℚ)
    (completed_flag : Bool) (actual_notes : Option String) : List ScSessionExercise :=
  rows.map (applyActualUpdate row_id sets_actual reps_actual load_kg_actual
    completed_flag actual_notes)

/-- The session-label computation of services.create_sc_block:
labels = ["A"] if sessions_per_week == 1 else ["A", "B"]. -/
def sessionLabels (sessions_per_week : ℤ) : List String :=
  if sessions_per_week = 1 then ["A"] else ["A", "B"]

/-- The inner template-row loop of services.create_sc_block: rows without an
exercise_id are skipped, otherwise the exercise style is classified, the
weekly suggestion computed, and a target row inserted. -/
def addTemplateRows (st : Store) (user_id role : String) (sess_id wk : ℤ)
    (is_deload : Bool) : List TemplateRow → Except String Store
  | [] => .ok st
  | row :: rest =>
    match row.exercise_id with
    | none => addTemplateRows st user_id role sess_id wk is_deload rest
    | some exid =>
      let style := parseExerciseStyle (getExercise st exid)
      let t := suggestProgression style wk is_deload row.sets row.reps row.load row.pct
      match addScSessionExerciseForUser st user_id role sess_id exid t.1 t.2.1
          t.2.2.2 t.2.2.1 none none none (some ("Auto-suggest (" ++ style ++ ")")) with
      | .error e => .error e
      | .ok (_, st') => addTemplateRows st' user_id role sess_id wk is_deload rest

/-- The session-label loop of services.create_sc_block: upsert the session,
clear its rows, refill from the session's template. -/
def processLabels (st : Store) (user_id role : String) (week_id wk : ℤ)
    (is_deload : Bool) (template_a template_b : List TemplateRow) :
    List String → Except String Store
  | [] => .ok st
  | lab :: rest =>
    match upsertScSessionForUser st user_id role week_id lab none none with
    | .error e => .error e
    | .ok (sess_id, st₁) =>
      match clearScSessionExercisesForUser st₁ user_id role sess_id with
      | .error e => .error e
      | .ok st₂ =>
        let tpl := if lab = "A" then template_a else template_b
        match addTemplateRows st₂ user_id role sess_id wk is_deload tpl with
        | .error e => .error e
        | .ok st₃ =>
          processLabels st₃ user_id role week_id wk is_deload template_a template_b rest

/-- The week loop of services.create_sc_block. -/
def processWeeks (st : Store) (user_id role : String) (block_id start_date : ℤ)
    (goal : String) (deload_week spw : ℤ) (template_a template_b : List TemplateRow) :
    List ℤ → Except String Store
  | [] => .ok st
  | wk :: rest =>
    let wk_start := start_date + (wk - 1) * 7
    let is_deload := wk == deload_week
    let focus := if is_deload then "deload" else goal
    match upsertScWeekForUser st user_id role block_id wk wk_start (some focus)
        is_deload none with
    | .error e => .error e
    | .ok (week_id, st₁) =>
      match processLabels st₁ user_id role week_id wk is_deload template_a template_b
          (sessionLabels spw) with
      | .error e => .error e
      | .ok st₂ =>
        processWeeks st₂ user_id role block_id start_date goal deload_week spw
          template_a template_b rest

/-- services.create_sc_block: create the block row, then materialize one week
row, its sessions and its target rows per week 1..weeks. Dates are modelled
as day numbers, so start_date + 7·(wk−1) stands for the ISO-date arithmetic. -/
def servicesCreateScBlock (st : Store) (user_id role : String)
    (patient_id start_date : ℤ) (goal : String) (notes : Option String) (weeks : ℤ)
    (model : String) (deload_week spw : ℤ) (template_a template_b : List TemplateRow) :
    Except String (ℤ × Store) :=
  match createScBlockForUser st user_id role patient_id start_date goal notes weeks
      model deload_week spw with
  | .error e => .error e
  | .ok (block_id, st₁) =>
    match processWeeks st₁ user_id role block_id start_date goal deload_week spw
        template_a template_b ((List.range weeks.toNat).map (fun i => (i : ℤ) + 1)) with
    | .error e => .error e
    | .ok st₂ => .ok (block_id, st₂)

/-- C9: record_actual touches only the actual columns of the addressed row.
The UPDATE maps every stored row through applyActualUpdate; that map never
changes any planned column (ids, targets, rpe/rest, intent, notes), leaves
rows with a different id entirely unchanged, and sets exactly the five actual
columns on the addressed row; planned values are never recomputed. -/
theorem c9_actuals_update_frame (rows : List ScSessionExercise) (row_id : ℤ)
    (sa ra : Option ℤ) (la : Option ℚ) (cf : Bool) (an : Option String)
    (x : ScSessionExercise) :
    updateScSessionExerciseActual rows row_id sa ra la cf an =
      rows.map (applyActualUpdate row_id sa ra la cf an) ∧
    (applyActualUpdate row_id sa ra la cf an x).id = x.id ∧
    (applyActualUpdate row_id sa ra la cf an x).session_id = x.session_id ∧
    (applyActualUpdate row_id sa ra la cf an x).exercise_id = x.exercise_id ∧
    (applyActualUpdate row_id sa ra la cf an x).sets_target = x.sets_target ∧
    (applyActualUpdate row_id sa ra la cf an x).reps_target = x.reps_target ∧
    (applyActualUpdate row_id sa ra la cf an x).pct_1rm_target = x.pct_1rm_target ∧
    (applyActualUpdate row_id sa ra la cf an x).load_kg_target = x.load_kg_target ∧
    (applyActualUpdate row_id sa ra la cf an x).rpe_target = x.rpe_target ∧
    (applyActualUpdate row_id sa ra la cf an x).rest_sec_target = x.rest_sec_target ∧
    (applyActualUpdate row_id sa ra la cf an x).intent = x.intent ∧
    (applyActualUpdate row_id sa ra la cf an x).notes = x.notes ∧
    (x.id ≠ row_id → applyActualUpdate row_id sa ra la cf an x = x) ∧
    (x.id = row_id →
      (applyActualUpdate row_id sa ra la cf an x).sets_actual = sa ∧
      (applyActualUpdate row_id sa ra la cf an x).reps_actual = ra ∧
      (applyActualUpdate row_id sa ra la cf an x).load_kg_actual = la ∧
      (applyActualUpdate row_id sa ra la cf an x).completed_flag = cf ∧
      (applyActualUpdate row_id sa ra la cf an x).actual_notes = an) := by
  by_cases h : x.id = row_id
  · have he : applyActualUpdate row_id sa ra la cf an x =
        { x with sets_actual := sa, reps_actual := ra, load_kg_actual := la,
                 completed_flag := cf, actual_notes := an } := by
      unfold applyActualUpdate; rw [if_pos h]
    rw [he]
    exact ⟨rfl, rfl, rfl, rfl, rfl, rfl, rfl, rfl, rfl, rfl, rfl, rfl,
      fun h' => absurd h h', fun _ => ⟨rfl, rfl, rfl, rfl, rfl⟩⟩
  · have he : applyActualUpdate row_id sa ra la cf an x = x := by
      unfold applyActualUpdate; rw [if_neg h]
    rw [he]
    exact ⟨rfl, rfl, rfl, rfl, rfl, rfl, rfl, rfl, rfl, rfl, rfl, rfl,
      fun _ => rfl, fun h' => absurd h' h⟩

/-- A stored target row used by the C9 witness. -/
def demoRow : ScSessionExercise :=
  ⟨7, 3, 1, 4, 10, some 0.7, some 62.5, none, some 120, some "crisp", some "wk1",
   none, none, none, false, none⟩

theorem c9_actuals_update_frame_witness :
    updateScSessionExerciseActual [demoRow] 7 (some 4) (some 9) (some 60) true
        (some "done") =
      [demoRow].map (applyActualUpdate 7 (some 4) (some 9) (some 60) true (some "done")) ∧
    (applyActualUpdate 7 (some 4) (some 9) (some 60) true (some "done") demoRow).id
      = demoRow.id ∧
    (applyActualUpdate 7 (some 4) (some 9) (some 60) true (some "done") demoRow).session_id
      = demoRow.session_id ∧
    (applyActualUpdate 7 (some 4) (some 9) (some 60) true (some "done") demoRow).exercise_id
      = demoRow.exercise_id ∧
    (applyActualUpdate 7 (some 4) (some 9) (some 60) true (some "done") demoRow).sets_target
      = demoRow.sets_target ∧
    (applyActualUpdate 7 (some 4) (some 9) (some 60) true (some "done") demoRow).reps_target
      = demoRow.reps_target ∧
    (applyActualUpdate 7 (some 4) (some 9) (some 60) true (some "done") demoRow).pct_1rm_target
      = demoRow.pct_1rm_target ∧
    (applyActualUpdate 7 (some 4) (some 9) (some 60) true (some "done") demoRow).load_kg_target
      = demoRow.load_kg_target ∧
    (applyActualUpdate 7 (some 4) (some 9) (some 60) true (some "done") demoRow).rpe_target
      = demoRow.rpe_target ∧
    (applyActualUpdate 7 (some 4) (some 9) (some 60) true (some "done") demoRow).rest_sec_target
      = demoRow.rest_sec_target ∧
    (applyActualUpdate 7 (some 4) (some 9) (some 60) true (some "done") demoRow).intent
      = demoRow.intent ∧
    (applyActualUpdate 7 (some 4) (some 9) (some 60) true (some "done") demoRow).notes
      = demoRow.notes ∧
    (demoRow.id ≠ 7 →
      applyActualUpdate 7 (some 4) (some 9) (some 60) true (some "done") demoRow = demoRow) ∧
    (demoRow.id = 7 →
      (applyActualUpdate 7 (some 4) (some 9) (some 60) true (some "done") demoRow).sets_actual
        = some 4 ∧
      (applyActualUpdate 7 (some 4) (some 9) (some 60) true (some "done") demoRow).reps_actual
        = some 9 ∧
      (applyActualUpdate 7 (some 4) (some 9) (some 60) true (some "done") demoRow).load_kg_actual
        = some 60 ∧
      (applyActualUpdate 7 (some 4) (some 9) (some 60) true (some "done") demoRow).completed_flag
        = true ∧
      (applyActualUpdate 7 (some 4) (some 9) (some 60) true (some "done") demoRow).actual_notes
        = some "done") :=
  c9_actuals_update_frame [demoRow] 7 (some 4) (some 9) (some 60) true (some "done") demoRow

/-! Plumbing lemmas about the Except-valued persistence wrappers, used to
trace which rows block generation creates. -/

theorem exceptBind_ok {α β : Type} (x : Except String α) (f : α → Except String β)
    (b : β) (h : (x >>= f) = .ok b) : ∃ a, x = .ok a ∧ f a = .ok b := by
  cases x with
  | error e => simp [Bind.bind, Except.bind] at h
  | ok a => exact ⟨a, rfl, by simpa [Bind.bind, Except.bind] using h⟩

theorem createScBlockForUser_ok {st : Store} {user_id role : String}
    {patient_id start_date : ℤ} {goal : String} {notes : Option String} {weeks : ℤ}
    {model : String} {deload_week spw : ℤ} {bid : ℤ} {st' : Store}
    (h : createScBlockForUser st user_id role patient_id start_date goal notes weeks
      model deload_week spw = .ok (bid, st')) :
    (bid, st') = createScBlock st patient_id start_date goal notes weeks model
      deload_week spw := by
  unfold createScBlockForUser at h
  rcases exceptBind_ok _ _ _ h with ⟨a, ha, h⟩
  rcases exceptBind_ok _ _ _ h with ⟨b, hb, h⟩
  simpa [Pure.pure, Except.pure] using h.symm

theorem upsertScWeekForUser_ok {st : Store} {user_id role : String}
    {block_id week_no week_start : ℤ} {focus : Option String} {deload_flag : Bool}
    {notes : Option String} {wid : ℤ} {st' : Store}
    (h : upsertScWeekForUser st user_id role block_id week_no week_start focus
      deload_flag notes = .ok (wid, st')) :
    (wid, st') = upsertScWeek st block_id week_no week_start focus deload_flag notes := by
  unfold upsertScWeekForUser at h
  rcases exceptBind_ok _ _ _ h with ⟨a, ha, h⟩
  rcases exceptBind_ok _ _ _ h with ⟨b, hb, h⟩
  simpa [Pure.pure, Except.pure] using h.symm

theorem upsertScSessionForUser_ok {st : Store} {user_id role : String} {week_id : ℤ}
    {session_label : String} {day_hint notes : Option String} {sid : ℤ} {st' : Store}
    (h : upsertScSessionForUser st user_id role week_id session_label day_hint notes
      = .ok (sid, st')) :
    (sid, st') = upsertScSession st week_id session_label day_hint notes := by
  unfold upsertScSessionForUser at h
  rcases exceptBind_ok _ _ _ h with ⟨a, ha, h⟩
  rcases exceptBind_ok _ _ _ h with ⟨b, hb, h⟩
  simpa [Pure.pure, Except.pure] using h.symm

theorem clearScSessionExercisesForUser_ok {st : Store} {user_id role : String}
    {session_id : ℤ} {st' : Store}
    (h : clearScSessionExercisesForUser st user_id role session_id = .ok st') :
    st' = clearScSessionExercises st session_id := by
  unfold clearScSessionExercisesForUser at h
  rcases exceptBind_ok _ _ _ h with ⟨a, ha, h⟩
  rcases exceptBind_ok _ _ _ h with ⟨b, hb, h⟩
  simpa [Pure.pure, Except.pure] using h.symm

theorem addScSessionExerciseForUser_ok {st : Store} {user_id role : String}
    {session_id exercise_id sets_target reps_target : ℤ}
    {pct_1rm_target load_kg_target : Option ℚ} {rpe_target rest_sec_target : Option ℤ}
    {intent notes : Option String} {rid : ℤ} {st' : Store}
    (h : addScSessionExerciseForUser st user_id role session_id exercise_id sets_target
      reps_target pct_1rm_target load_kg_target rpe_target rest_sec_target intent notes
      = .ok (rid, st')) :
    (rid, st') = addScSessionExercise st session_id exercise_id sets_target reps_target
      pct_1rm_target load_kg_target rpe_target rest_sec_target intent notes := by
  unfold addScSessionExerciseForUser at h
  rcases exceptBind_ok _ _ _ h with ⟨a, ha, h⟩
  rcases exceptBind_ok _ _ _ h with ⟨b, hb, h⟩
  simpa [Pure.pure, Except.pure] using h.symm

/-! Which sessions each persistence operation can produce. -/

theorem upsertScSession_sessions (st : Store) (week_id : ℤ) (session_label : String)
    (day_hint notes : Option String) :
    ∀ s ∈ (upsertScSession st week_id session_label day_hint notes).2.sc_sessions,
      s ∈ st.sc_sessions ∨ s.session_label = session_label := by
  unfold upsertScSession
  cases hf : st.sc_sessions.find? (fun s => s.week_id == week_id && s.session_label == session_label) with
  | none =>
      intro s hs
      rcases List.mem_append.mp hs with hl | hr
      · exact Or.inl hl
      · simp only [List.mem_singleton] at hr
        subst hr
        exact Or.inr rfl
  | some w =>
      intro s hs
      rcases List.mem_map.mp hs with ⟨x, hx, hfx⟩
      by_cases hc : (x.week_id == week_id && x.session_label == session_label) = true
      · rw [if_pos hc] at hfx
        subst hfx
        right
        exact eq_of_beq (Bool.and_elim_right hc)
      · rw [if_neg hc] at hfx
        subst hfx
        exact Or.inl hx

theorem clearScSessionExercises_sessions (st : Store) (session_id : ℤ) :
    (clearScSessionExercises st session_id).sc_sessions = st.sc_sessions := rfl

theorem addScSessionExercise_sessions (st : Store)
    (session_id exercise_id sets_target reps_target : ℤ)
    (pct_1rm_target load_kg_target : Option ℚ) (rpe_target rest_sec_target : Option ℤ)
    (intent notes : Option String) :
    (addScSessionExercise st session_id exercise_id sets_target reps_target
      pct_1rm_target load_kg_target rpe_target rest_sec_target intent notes).2.sc_sessions
    = st.sc_sessions := rfl

theorem createScBlock_sessions (st : Store) (patient_id start_date : ℤ) (goal : String)
    (notes : Option String) (weeks : ℤ) (model : String) (deload_week spw : ℤ) :
    (createScBlock st patient_id start_date goal notes weeks model deload_week spw).2.sc_sessions
    = st.sc_sessions := rfl

theorem upsertScWeek_sessions (st : Store) (block_id week_no week_start : ℤ)
    (focus : Option String) (deload_flag : Bool) (notes : Option String) :
    (upsertScWeek st block_id week_no week_start focus deload_flag notes).2.sc_sessions
    = st.sc_sessions := by
  unfold upsertScWeek
  cases st.sc_weeks.find? (fun w => w.block_id == block_id && w.week_no == week_no) <;> rfl

theorem addTemplateRows_sessions {st : Store} {user_id role : String} {sess_id wk : ℤ}
    {is_deload : Bool} {rows : List TemplateRow} {st' : Store}
    (h : addTemplateRows st user_id role sess_id wk is_deload rows = .ok st') :
    st'.sc_sessions = st.sc_sessions := by
  induction rows generalizing st with
  | nil =>
      unfold addTemplateRows at h
      cases h
      rfl
  | cons row rest ih =>
      unfold addTemplateRows at h
      cases hex : row.exercise_id with
      | none =>
          rw [hex] at h
          exact ih h
      | some exid =>
          rw [hex] at h
          dsimp only at h
          split at h
          · exact absurd h (by simp)
          · rename_i rid st₁ heq
            have hy := addScSessionExerciseForUser_ok heq
            have h1 : st₁.sc_sessions = st.sc_sessions := by
              have := congrArg (fun z : ℤ × Store => z.2.sc_sessions) hy
              simpa [addScSessionExercise_sessions] using this
            rw [ih h]
            exact h1

theorem processLabels_sessions {st : Store} {user_id role : String} {week_id wk : ℤ}
    {is_deload : Bool} {template_a template_b : List TemplateRow}
    {labels : List String} {st' : Store}
    (h : processLabels st user_id role week_id wk is_deload template_a template_b labels
      = .ok st') :
    ∀ s ∈ st'.sc_sessions, s ∈ st.sc_sessions ∨ s.session_label ∈ labels := by
  induction labels generalizing st with
  | nil =>
      unfold processLabels at h
      cases h
      intro s hs
      exact Or.inl hs
  | cons lab rest ih =>
      unfold processLabels at h
      split at h
      · exact absurd h (by simp)
      · rename_i sid st₁ hup
        split at h
        · exact absurd h (by simp)
        · rename_i st₂ hclear
          dsimp only at h
          obtain ⟨tpl, h⟩ :
              ∃ tpl : List TemplateRow,
                (match addTemplateRows st₂ user_id role sid wk is_deload tpl with
                  | Except.error e => Except.error e
                  | Except.ok st₃ =>
                    processLabels st₃ user_id role week_id wk is_deload template_a
                      template_b rest) = Except.ok st' := ⟨_, h⟩
          split at h
          · exact absurd h (by simp)
          · rename_i st₃ hadd
            intro s hs
            have hy := upsertScSessionForUser_ok hup
            have hst₁ : st₁ = (upsertScSession st week_id lab none none).2 := by
              have := congrArg (fun z : ℤ × Store => z.2) hy
              simpa using this
            have hst₂ : st₂.sc_sessions = st₁.sc_sessions := by
              rw [clearScSessionExercisesForUser_ok hclear,
                clearScSessionExercises_sessions]
            have hst₃ : st₃.sc_sessions = st₂.sc_sessions := addTemplateRows_sessions hadd
            rcases ih h s hs with hmem | hlab
            · rw [hst₃, hst₂, hst₁] at hmem
              rcases upsertScSession_sessions st week_id lab none none s hmem with hmem' | hl
              · exact Or.inl hmem'
              · exact Or.inr (by simp [hl])
            · exact Or.inr (by simp [hlab])

theorem processWeeks_sessions {st : Store} {user_id role : String}
    {block_id start_date : ℤ} {goal : String} {deload_week spw : ℤ}
    {template_a template_b : List TemplateRow} {wks : List ℤ} {st' : Store}
    (h : processWeeks st user_id role block_id start_date goal deload_week spw
      template_a template_b wks = .ok st') :
    ∀ s ∈ st'.sc_sessions, s ∈ st.sc_sessions ∨ s.session_label ∈ sessionLabels spw := by
  induction wks generalizing st with
  | nil =>
      unfold processWeeks at h
      cases h
      intro s hs
      exact Or.inl hs
  | cons wk rest ih =>
      unfold processWeeks at h
      dsimp only at h
      obtain ⟨fc, dl, h⟩ :
          ∃ (fc : Option String) (dl : Bool),
            (match upsertScWeekForUser st user_id role block_id wk
                (start_date + (wk - 1) * 7) fc dl none with
              | Except.error e => Except.error e
              | Except.ok (week_id, st₁) =>
                match processLabels st₁ user_id role week_id wk dl template_a template_b
                    (sessionLabels spw) with
                | Except.error e => Except.error e
                | Except.ok st₂ =>
                  processWeeks st₂ user_id role block_id start_date goal deload_week spw
                    template_a template_b rest) = Except.ok st' := ⟨_, _, h⟩
      split at h
      · exact absurd h (by simp)
      · rename_i wid st₁ hup
        split at h
        · exact absurd h (by simp)
        · rename_i st₂ hlabels
          intro s hs
          have hy := upsertScWeekForUser_ok hup
          have hst₁ : st₁.sc_sessions = st.sc_sessions := by
            have := congrArg (fun z : ℤ × Store => z.2.sc_sessions) hy
            simpa [upsertScWeek_sessions] using this
          rcases ih h s hs with hmem | hlab
          · rcases processLabels_sessions hlabels s hmem with hmem' | hl
            · rw [hst₁] at hmem'
              exact Or.inl hmem'
            · exact Or.inr hl
          · exact Or.inr hlab

/-- C2 (counterexample): a concrete block generation with sessions_per_week = 3
creates sessions labelled A and B only — not A, B and C as the claim states.
The demo store has one coach with access to one patient. -/
def demoStore : Store :=
  ⟨[⟨1, "Back Squat", some "squat", some "bilateral", some "barbell", some "quads", none⟩],
   [(1, "owner1")], [("coach1", 1)], [], [], [], [], 1, 1, 1, 1⟩

def c2Run : Except String (ℤ × Store) :=
  servicesCreateScBlock demoStore "coach1" "coach" 1 0 "hybrid" none 1 "hybrid_v1" 1 3 [] []

def c2Store : Store :=
  match c2Run with
  | .ok (_, s) => s
  | .error _ => demoStore

theorem c2_counterexample :
    c2Run = .ok (1, c2Store) ∧
    c2Store.sc_sessions.map (fun s => s.session_label) = ["A", "B"] ∧
    (["A", "B"] : List String) ≠ ["A", "B", "C"] := by
  refine ⟨rfl, by decide, by decide⟩

/-- C2 (amended): every session created by services.create_sc_block is
labelled from sessionLabels sessions_per_week, and that label list is ["A"]
for sessions_per_week = 1 and ["A", "B"] for every other value — including
sessions_per_week = 3, which does NOT produce a "C" session. -/
theorem c2_session_labels_amended (st : Store) (user_id role : String)
    (patient_id start_date : ℤ) (goal : String) (notes : Option String) (weeks : ℤ)
    (model : String) (deload_week spw : ℤ) (template_a template_b : List TemplateRow)
    (bid : ℤ) (st' : Store) (s : ScSession)
    (hok : servicesCreateScBlock st user_id role patient_id start_date goal notes weeks
      model deload_week spw template_a template_b = .ok (bid, st'))
    (hs : s ∈ st'.sc_sessions) :
    (s ∈ st.sc_sessions ∨ s.session_label ∈ sessionLabels spw) ∧
    sessionLabels 1 = ["A"] ∧ sessionLabels 2 = ["A", "B"] ∧
    sessionLabels 3 = ["A", "B"] := by
  refine ⟨?_, rfl, rfl, rfl⟩
  unfold servicesCreateScBlock at hok
  split at hok
  · exact absurd hok (by simp)
  · rename_i bid' st₁ hcreate
    split at hok
    · exact absurd hok (by simp)
    · rename_i st₂ hweeks
      have hpair : (bid', st₂) = (bid, st') := by
        injection hok
      have hst' : st' = st₂ := by
        have := congrArg (fun z : ℤ × Store => z.2) hpair
        simpa using this.symm
      subst hst'
      have hcb := createScBlockForUser_ok hcreate
      have hst₁ : st₁.sc_sessions = st.sc_sessions := by
        have := congrArg (fun z : ℤ × Store => z.2.sc_sessions) hcb
        simpa [createScBlock_sessions] using this
      rcases processWeeks_sessions hweeks s hs with hmem | hlab
      · rw [hst₁] at hmem
        exact Or.inl hmem
      · exact Or.inr hlab

def c2wRun : Except String (ℤ × Store) :=
  servicesCreateScBlock demoStore "coach1" "coach" 1 0 "hybrid" none 1 "hybrid_v1" 1 2 [] []

def c2wStore : Store :=
  match c2wRun with
  | .ok (_, s) => s
  | .error _ => demoStore

theorem c2_session_labels_amended_witness :
    c2wRun = .ok (1, c2wStore) ∧
    (⟨1, 1, "A", none, none⟩ : ScSession) ∈ c2wStore.sc_sessions ∧
    (((⟨1, 1, "A", none, none⟩ : ScSession) ∈ demoStore.sc_sessions ∨
        (⟨1, 1, "A", none, none⟩ : ScSession).session_label ∈ sessionLabels 2) ∧
      sessionLabels 1 = ["A"] ∧ sessionLabels 2 = ["A", "B"] ∧
      sessionLabels 3 = ["A", "B"]) := by
  refine ⟨rfl, by decide, ?_⟩
  exact c2_session_labels_amended demoStore "coach1" "coach" 1 0 "hybrid" none 1
    "hybrid_v1" 1 2 [] [] 1 c2wStore ⟨1, 1, "A", none, none⟩ rfl (by decide)

/-- C3 (amended): create_sc_block performs no input validation at all: for a
coach with patient access, whatever the numeric parameters — deload_week
outside [1, weeks], sessions_per_week outside {1,2,3}, negative values — the
block row is inserted unconditionally with exactly those values; the only
checks preceding the write are the role and patient-access checks. -/
theorem c3_no_validation_amended (st : Store) (user_id role : String)
    (patient_id start_date : ℤ) (goal : String) (notes : Option String) (weeks : ℤ)
    (model : String) (deload_week spw : ℤ)
    (hrole : role = "coach" ∨ role = "super_admin")
    (hacc : userCanAccessPatient st user_id role patient_id = true) :
    createScBlockForUser st user_id role patient_id start_date goal notes weeks model
      deload_week spw =
      .ok (st.next_block_id,
        { st with
            sc_blocks := st.sc_blocks ++
              [⟨st.next_block_id, patient_id, start_date, weeks, model, deload_week,
                spw, goal, notes⟩],
            next_block_id := st.next_block_id + 1 }) := by
  have hc : assertCoach role = .ok () := by
    unfold assertCoach
    rcases hrole with h | h <;> subst h <;> rfl
  have ha : assertPatientAccess st user_id role patient_id = .ok () := by
    unfold assertPatientAccess
    rw [if_pos hacc]
  unfold createScBlockForUser
  rw [hc, ha]
  rfl

theorem c3_no_validation_amended_witness :
    (("coach" : String) = "coach" ∨ ("coach" : String) = "super_admin") ∧
    userCanAccessPatient demoStore "coach1" "coach" 1 = true ∧
    createScBlockForUser demoStore "coach1" "coach" 1 0 "hybrid" none 6 "hybrid_v1" 0 9 =
      .ok (demoStore.next_block_id,
        { demoStore with
            sc_blocks := demoStore.sc_blocks ++
              [⟨demoStore.next_block_id, 1, 0, 6, "hybrid_v1", 0, 9, "hybrid", none⟩],
            next_block_id := demoStore.next_block_id + 1 }) := by
  refine ⟨Or.inl rfl, by decide, ?_⟩
  exact c3_no_validation_amended demoStore "coach1" "coach" 1 0 "hybrid" none 6
    "hybrid_v1" 0 9 (Or.inl rfl) (by decide)

def c3Run : Except String (ℤ × Store) :=
  servicesCreateScBlock demoStore "coach1" "coach" 1 0 "hybrid" none 2 "hybrid_v1" 0 2
    [⟨some 1, -3, 10, none, none⟩] []

def c3Store : Store :=
  match c3Run with
  | .ok (_, s) => s
  | .error _ => demoStore

/-- C3 (counterexample): calling create_sc_block with deload_week = 0 (outside
[1, weeks]) and sets = −3 raises no validation error: the call succeeds and
persists the block (with deload_week 0), both weeks, and target rows carrying
the negative sets value. -/
theorem c3_counterexample :
    c3Run = .ok (1, c3Store) ∧
    c3Store.sc_blocks.map (fun b => b.deload_week) = [0] ∧
    c3Store.sc_weeks.length = 2 ∧
    c3Store.sc_session_exercises.map (fun x => x.sets_target) = [-3, -3] := by
  exact ⟨rfl, by decide, by decide, by decide⟩
